import Mathlib

/-!
# goframework: Kafka consumer envelope, dead-letter routing, producer publish, repository filters

A shallow embedding of `kafka_consumer.go`, `kafka_producer.go` and the filter
construction of `repository.go`.

Conventions of the embedding.

* A Go call either returns or panics; `Outcome` records which, together with
  the state of the world the call leaves behind.
* The world of the consumer side holds the one message the envelope works on
  (all Go code shares it through a `*kafka.Message`), the number of handler
  invocations made so far, and the trace of externally visible events.
* External collaborators (the Kafka client, `CreateKafkaTopic`, `json.Marshal`,
  `uuid.NewString`, `helperContextKafka`, `uuid.MustParse`, the user handler)
  are parameters.
-/

namespace Goframework

/-! ## Data model -/

/-- Go `[]byte`. -/
abbrev Bytes := List Nat

/-- Go `kafka.Header`. -/
structure Header where
  Key : String
  Value : Bytes
deriving DecidableEq, Repr

/-- Go `kafka.PartitionAny`. -/
def PartitionAny : Int := -1

/-- Go `kafka.TopicPartition`; `Topic` is a `*string`, `none` is the nil pointer. -/
structure TopicPartition where
  Topic : Option String
  Partition : Int
  Offset : Int
  Metadata : Option String
  Error : Option String
deriving DecidableEq, Repr

/-- Go `kafka.Message`. `UserData` stands for the field the client library
calls `Opaque`. -/
structure Message where
  TopicPartition : TopicPartition
  Value : Bytes
  Key : Bytes
  Timestamp : Int
  TimestampType : Int
  UserData : Option String
  Headers : List Header
deriving DecidableEq, Repr

/-- Go `TopicConfiguration`, the argument of `CreateKafkaTopic`. -/
structure TopicConfiguration where
  Topic : String
  NumPartitions : Int
  ReplicationFactor : Int
deriving DecidableEq, Repr

/-- Go `KafkaConsumerSettings`. `Retries` is a `uint16`; the only arithmetic
the code does on it is a decrement guarded by `Retries > 1`, which cannot wrap. -/
structure KafkaConsumerSettings where
  Topic : String
  NumPartitions : Int
  ReplicationFactor : Int
  GroupId : String
  AutoOffsetReset : String
  Retries : Nat
deriving DecidableEq, Repr

/-- Go `ConsumerContext` as built at `kafka_consumer.go:58-62`. `Msg` is the
shared message pointer; the embedding carries the message it points to. The
ambient `context.Context` plays no part in the control flow and is left out. -/
structure ConsumerContext where
  RemainingRetries : Nat
  Faulted : Bool
  Msg : Message
deriving DecidableEq, Repr

/-- The value a Go `panic` carries, as `recover()` hands it back: either a
value that implements `error`, or any other non-nil value (a string, say). -/
inductive PanicValue where
  | error (text : String)
  | other (text : String)
deriving DecidableEq, Repr

/-- How a Go call ends: it returns, or it panics with a value. Either way it
leaves a world behind. -/
inductive Outcome (ω : Type) where
  | returned (w : ω)
  | panicked (v : PanicValue) (w : ω)
deriving DecidableEq, Repr

/-- The world a call leaves behind. -/
def Outcome.world {ω : Type} : Outcome ω → ω
  | .returned w => w
  | .panicked _ w => w

/-- Whether the call returned normally. -/
def Outcome.isReturned {ω : Type} : Outcome ω → Bool
  | .returned _ => true
  | .panicked _ _ => false

/-- Externally visible events of the consumer side, in program order. -/
inductive Event where
  /-- The call `fn(cctx)` at `kafka_consumer.go:78`. -/
  | handlerInvoked (cctx : ConsumerContext)
  /-- The line printed by `fmt.Println(err.Error())` at line 67. -/
  | printed (line : String)
  /-- The call `kafka.NewProducer(kcm)` at line 86, with whether a handle was obtained. -/
  | newProducer (ok : Bool)
  /-- The call `CreateKafkaTopic(ctx, kcm, cfg)` at line 96. -/
  | createKafkaTopic (cfg : TopicConfiguration)
  /-- The call `p.Produce(msg, nil)` at line 104, with whether the client accepted it. -/
  | produce (msg : Message) (accepted : Bool)
  /-- The call `p.Flush(ms)` at line 108. -/
  | flush (ms : Nat)
  /-- The deferred `p.Close()` of line 92. -/
  | close
deriving DecidableEq, Repr

/-- State of the world on the consumer side. -/
structure World where
  /-- The message behind the shared `*kafka.Message`. -/
  msg : Message
  /-- Number of handler invocations made so far. -/
  calls : Nat
  /-- Events so far, oldest first. -/
  log : List Event
deriving DecidableEq, Repr

/-- Append an event to the trace. -/
def World.emit (w : World) (e : Event) : World :=
  { w with log := w.log ++ [e] }

/-- The world in which the envelope is entered for a freshly consumed message. -/
def World.start (msg : Message) : World :=
  { msg := msg, calls := 0, log := [] }

/-- The user handler (`ConsumerFunc`). Its behaviour may differ from one
invocation to the next, so it is given the number of earlier invocations; it
either returns (`none`) or panics with a value. The handler is taken not to
write through the message pointer. -/
abbrev ConsumerFunc := Nat → ConsumerContext → Option PanicValue

/-- The Kafka client and the topic provisioner as seen from `kafkaSendToDlq`. -/
structure Broker where
  /-- The error `kafka.NewProducer` returns, `none` when it yields a handle. -/
  newProducer : Option String
  /-- The outcome of `CreateKafkaTopic`: `none` when it returns, the panic value otherwise. -/
  createKafkaTopic : TopicConfiguration → Option PanicValue
  /-- The error `p.Produce` returns for a message, `none` when it is accepted. -/
  produce : Message → Option String

/-- Run a deferred `p.Close()` on the way out of a call, whichever way it ends. -/
def deferClose : Outcome World → Outcome World
  | .returned w => .returned (w.emit .close)
  | .panicked v w => .panicked v (w.emit .close)

/-- Go `kafkaSendToDlq` (`kafka_consumer.go:81-109`). -/
def kafkaSendToDlq (B : Broker) (w : World) : Outcome World :=
  match B.newProducer with
  | some err => .panicked (.error err) (w.emit (.newProducer false))
  | none =>
    let w := w.emit (.newProducer true)
    deferClose <|
      match w.msg.TopicPartition.Topic with
      | none => .panicked (.error "invalid memory address or nil pointer dereference") w
      | some t =>
        let tpn := t ++ "_error"
        let cfg : TopicConfiguration :=
          { Topic := tpn, NumPartitions := 1, ReplicationFactor := 1 }
        let w := w.emit (.createKafkaTopic cfg)
        match B.createKafkaTopic cfg with
        | some v => .panicked v w
        | none =>
          let msg : Message :=
            { w.msg with
              TopicPartition :=
                { w.msg.TopicPartition with Topic := some tpn, Partition := PartitionAny } }
          let w := { w with msg := msg }
          match B.produce msg with
          | some err => .panicked (.error err) (w.emit (.produce msg false))
          | none => .returned ((w.emit (.produce msg true)).emit (.flush (15 * 100)))

/-- The context of the attempt made when `remaining` retries are left
(`kafka_consumer.go:58-62`). -/
def attemptContext (msg : Message) (remaining : Nat) : ConsumerContext :=
  { RemainingRetries := remaining, Faulted := remaining == 0, Msg := msg }

/-- The world after the handler has been entered with `remaining` retries left. -/
def World.invoked (w : World) (remaining : Nat) : World :=
  { w with
    calls := w.calls + 1,
    log := w.log ++ [.handlerInvoked (attemptContext w.msg remaining)] }

/-- One activation of Go `kafkaCallFnWithResilence` (`kafka_consumer.go:58-67`
and `78`) for a settings value whose `Retries` is `retries`, up to the point
where the deferred function has recovered an error and printed it; what the
deferred function does next (lines 68-74) is `onError`.

* the handler returns: `recover()` yields nil, the call returns;
* the handler panics with a value that is not an `error`: the assertion
  `e.(error)` of line 66 panics inside the deferred function, and nothing
  recovers that panic;
* the handler panics with an `error`: it is printed and `onError` runs. -/
def kafkaCallFnWithResilence.invoke (fn : ConsumerFunc) (retries : Nat) (w : World)
    (onError : World → Outcome World) : Outcome World :=
  let cctx := attemptContext w.msg retries
  match fn w.calls cctx with
  | none => .returned (w.invoked retries)
  | some (.other _) =>
    .panicked (.error "interface conversion: value is not an error") (w.invoked retries)
  | some (.error err) => onError ((w.invoked retries).emit (.printed err))

/-- Go `kafkaCallFnWithResilence` (`kafka_consumer.go:51-79`) by the value of
`kcs.Retries`; no other field of `kcs` is read. With `Retries > 1` the deferred
function decrements the count and calls the function again (lines 68-71);
otherwise it calls `kafkaSendToDlq` (line 74). Either call is made after
`recover()`, inside the deferred function, so the way it ends is the way the
whole activation ends. -/
def kafkaCallFnWithResilence.attempt (B : Broker) (fn : ConsumerFunc) :
    (retries : Nat) → World → Outcome World
  | n + 2, w =>
    kafkaCallFnWithResilence.invoke fn (n + 2) w (kafkaCallFnWithResilence.attempt B fn (n + 1))
  | 1, w => kafkaCallFnWithResilence.invoke fn 1 w (kafkaSendToDlq B)
  | 0, w => kafkaCallFnWithResilence.invoke fn 0 w (kafkaSendToDlq B)

/-- Go `kafkaCallFnWithResilence`. -/
def kafkaCallFnWithResilence (B : Broker) (fn : ConsumerFunc)
    (kcs : KafkaConsumerSettings) (w : World) : Outcome World :=
  kafkaCallFnWithResilence.attempt B fn kcs.Retries w

/-! ### Reading a trace -/

/-- The contexts the handler was invoked with, in order. -/
def invocations : List Event → List ConsumerContext
  | [] => []
  | .handlerInvoked c :: es => c :: invocations es
  | _ :: es => invocations es

/-- The events that are neither a handler invocation nor a printed line: what
the dead-letter step did. -/
def deadLetterEvents : List Event → List Event
  | [] => []
  | .handlerInvoked _ :: es => deadLetterEvents es
  | .printed _ :: es => deadLetterEvents es
  | e :: es => e :: deadLetterEvents es

/-- The messages handed to `p.Produce`, in order, accepted or not. -/
def produceCalls : List Event → List Message
  | [] => []
  | .produce m _ :: es => m :: produceCalls es
  | _ :: es => produceCalls es

/-- The messages `p.Produce` accepted, in order. -/
def published : List Event → List Message
  | [] => []
  | .produce m true :: es => m :: published es
  | _ :: es => published es

/-- The contexts of all attempts an envelope entered with `retries` can make,
first attempt first: `retries`, `retries - 1`, ..., down to `1` (or the single
attempt with `0`). -/
def attemptContexts (msg : Message) : Nat → List ConsumerContext
  | n + 2 => attemptContext msg (n + 2) :: attemptContexts msg (n + 1)
  | r => [attemptContext msg r]

/-- The message as `kafkaSendToDlq` rewrites it for a derived topic name
(`kafka_consumer.go:102-103`). -/
def rerouted (msg : Message) (tpn : String) : Message :=
  { msg with
    TopicPartition := { msg.TopicPartition with Topic := some tpn, Partition := PartitionAny } }

/-! ## Producer (`kafka_producer.go`) -/

/-- Go `KafkaProducerSettings`. -/
structure KafkaProducerSettings where
  Topic : String
  NumPartitions : Int
  ReplicationFactor : Int
  Partition : Int
  Offset : Int
  TimeoutFlush : Int
deriving DecidableEq, Repr

/-- What `Publish` calls outside this repository. -/
structure PublishEnv (T : Type) where
  /-- The error `kafka.NewProducer` returns, `none` when it yields a handle. -/
  newProducer : Option String
  /-- Go `json.Marshal` on a payload. -/
  marshal : T → Except String Bytes
  /-- The error `p.Produce` returns for a message, given how many messages the
  handle has accepted before; `none` when the message is enqueued. -/
  produce : Nat → Message → Option String
  /-- The bytes of the `i`-th `uuid.NewString()` of the call. -/
  newUuid : Nat → Bytes

/-- Local state of one `Publish` call. -/
structure PublishState where
  /-- The local `headers` slice. -/
  headers : List Header
  /-- Number of `uuid.NewString()` calls made. -/
  uuidCalls : Nat
  /-- The messages `p.Produce` accepted, oldest first. -/
  enqueued : List Message
  /-- Number of delivery-report goroutines started. -/
  drains : Nat
deriving DecidableEq, Repr

/-- The key of the correlation header. -/
def correlationKey : String := "X-Correlation-Id"

/-- The inner loop of `kafka_producer.go:76-81`. -/
def hasCorrelationID (headers : List Header) : Bool :=
  headers.foldl
    (fun has v => if v.Key == correlationKey && decide (v.Value.length > 0) then true else has)
    false

/-- The message `Publish` builds at `kafka_producer.go:92-96`. -/
def outgoing (kcs : KafkaProducerSettings) (data : Bytes) (headers : List Header) : Message :=
  { TopicPartition :=
      { Topic := some kcs.Topic, Partition := PartitionAny, Offset := kcs.Offset,
        Metadata := none, Error := none },
    Value := data, Key := [], Timestamp := 0, TimestampType := 0, UserData := none,
    Headers := headers }

/-- The head of the loop body of `Publish` (`kafka_producer.go:76-84`): when no
header of the local list is a filled correlation header, a header with a fresh
id is appended to the list. -/
def Publish.ensureCorrelationID {T : Type} (E : PublishEnv T) (st : PublishState) :
    PublishState :=
  if !hasCorrelationID st.headers then
    { st with
      headers := st.headers ++ [{ Key := correlationKey, Value := E.newUuid st.uuidCalls }],
      uuidCalls := st.uuidCalls + 1 }
  else st

/-- The `for _, m := range msgs` loop of `Publish` (`kafka_producer.go:74-115`).
The delivery-report goroutine only reads reports; it is counted, not run. -/
def Publish.loop {T : Type} (E : PublishEnv T) (kcs : KafkaProducerSettings) :
    List T → PublishState → Option String × PublishState
  | [], st => (none, st)
  | m :: rest, st =>
    let st1 : PublishState := Publish.ensureCorrelationID E st
    match E.marshal m with
    | .error err => (some err, st1)
    | .ok data =>
      let km := outgoing kcs data st1.headers
      match E.produce st1.enqueued.length km with
      | some err => (some err, st1)
      | none =>
        Publish.loop E kcs rest
          { st1 with enqueued := st1.enqueued ++ [km], drains := st1.drains + 1 }

/-- Go `KafkaProducer.Publish` (`kafka_producer.go:55-118`). `ctxHeaders` is
what `helperContextKafka` yields for the request context. The result is the
returned error (`none` for `nil`) and the final local state. The telemetry
segment of lines 57-60 takes no part in what is enqueued or returned and is left
out. -/
def Publish {T : Type} (E : PublishEnv T) (kcs : KafkaProducerSettings)
    (ctxHeaders : List Header) (msgs : List T) : Option String × PublishState :=
  let st : PublishState := { headers := ctxHeaders, uuidCalls := 0, enqueued := [], drains := 0 }
  match E.newProducer with
  | some err => (some err, st)
  | none => Publish.loop E kcs msgs st

/-- The headers of a list whose key is the correlation key. -/
def correlationHeaders (hs : List Header) : List Header :=
  hs.filter (fun v => v.Key == correlationKey)

/-- The correlation headers of a list that carry a non-empty value. -/
def filledCorrelationHeaders (hs : List Header) : List Header :=
  hs.filter (fun v => v.Key == correlationKey && decide (v.Value.length > 0))

/-! ## Repository filters (`repository.go`) -/

/-- A parsed `uuid.UUID`, by its canonical text. -/
structure Uuid where
  canonical : String
deriving DecidableEq, Repr

/-- The value of `uuid.MustParse("00000000-0000-0000-0000-000000000000")`. -/
def Uuid.zero : Uuid := { canonical := "00000000-0000-0000-0000-000000000000" }

/-- The BSON values the built filters compare against. -/
inductive BsonValue where
  | uuid (u : Uuid)
  | bool (b : Bool)
  | text (s : String)
deriving DecidableEq, Repr

/-- One element of `filterAggregator["$and"]`. -/
inductive Clause (φ : Type) where
  /-- The caller's `filter` map, kept as given. -/
  | caller (f : φ)
  /-- A `map` with the single key `$or` over one-field documents `bson.D`. -/
  | anyOf (alternatives : List (String × BsonValue))
  /-- A one-field document `bson.D` with key and value. -/
  | field (key : String) (value : BsonValue)
deriving DecidableEq, Repr

/-- The `filterAggregator` map: its only key is `$and`. -/
structure FilterAggregator (φ : Type) where
  conjuncts : List (Clause φ)
deriving DecidableEq, Repr

/-- Go `GetAll`, lines 49-59: the filter handed to `collection.Find`.
`tenantId` is `getContextHeader(ctx, "X-Tenant-Id")`; `mustParse` is
`uuid.MustParse`, `none` when it panics. -/
def GetAll.filterAggregator {φ : Type} (mustParse : String → Option Uuid)
    (tenantId : String) (filter : φ) : Option (FilterAggregator φ) :=
  let agg : List (Clause φ) := [] ++ [.caller filter]
  if tenantId ≠ "" then
    match mustParse tenantId with
    | none => none
    | some t =>
      let agg := agg ++ [.anyOf [("tenantId", .uuid t), ("tenantId", .uuid Uuid.zero)]]
      let agg := agg ++ [.field "active" (.bool true)]
      some { conjuncts := agg }
  else some { conjuncts := agg }

/-- Go `GetAllSkipTake`, lines 92-102: the filter handed to
`collection.CountDocuments` and `collection.Find`. -/
def GetAllSkipTake.filterAggregator {φ : Type} (mustParse : String → Option Uuid)
    (tenantId : String) (filter : φ) : Option (FilterAggregator φ) :=
  let agg : List (Clause φ) := [] ++ [.caller filter]
  if tenantId ≠ "" then
    match mustParse tenantId with
    | none => none
    | some t =>
      let agg := agg ++
        [.anyOf [("tenantId", .uuid t), ("tenantId", .uuid Uuid.zero), ("active", .bool true)]]
      some { conjuncts := agg }
  else some { conjuncts := agg }

/-- A stored document, as its top-level fields. -/
abbrev Document := List (String × BsonValue)

/-- The value of a top-level field, if the document has it. -/
def Document.get (d : Document) (key : String) : Option BsonValue :=
  (d.find? (fun kv => kv.1 == key)).map (fun kv => kv.2)

/-- MongoDB equality match of one field. -/
def fieldMatches (d : Document) (kv : String × BsonValue) : Bool :=
  d.get kv.1 == some kv.2

/-- Whether a document satisfies one conjunct; `sem` is the meaning of the
caller's filter. -/
def Clause.holds {φ : Type} (sem : φ → Document → Bool) (d : Document) : Clause φ → Bool
  | .caller f => sem f d
  | .anyOf alternatives => alternatives.any (fieldMatches d)
  | .field key value => fieldMatches d (key, value)

/-- Whether a document satisfies the `$and` of all conjuncts. -/
def FilterAggregator.holds {φ : Type} (sem : φ → Document → Bool) (d : Document)
    (q : FilterAggregator φ) : Bool :=
  q.conjuncts.all (Clause.holds sem d)

/-- The listing condition in the words of the specification: the caller's
filter, and the tenant is the caller's or the all-zero one, and the document is
active. -/
def tenantListingCondition {φ : Type} (sem : φ → Document → Bool) (tenant : Uuid)
    (filter : φ) (d : Document) : Bool :=
  sem filter d &&
    (d.get "tenantId" == some (.uuid tenant) || d.get "tenantId" == some (.uuid Uuid.zero)) &&
    d.get "active" == some (.bool true)

/-! ## Sample values -/

/-- A broker on which every call succeeds. -/
def Broker.healthy : Broker :=
  { newProducer := none, createKafkaTopic := fun _ => none, produce := fun _ => none }

/-- A broker to which no producer can connect. -/
def Broker.unreachable : Broker :=
  { newProducer := some "connection refused", createKafkaTopic := fun _ => none,
    produce := fun _ => none }

/-- A broker whose producer rejects every message. -/
def Broker.rejecting : Broker :=
  { newProducer := none, createKafkaTopic := fun _ => none,
    produce := fun _ => some "queue full" }

/-- A consumed message on topic `orders`. -/
def sampleMessage : Message :=
  { TopicPartition :=
      { Topic := some "orders", Partition := 3, Offset := 42, Metadata := none, Error := none },
    Value := [123, 125], Key := [7], Timestamp := 1700000000, TimestampType := 1,
    UserData := none, Headers := [{ Key := "X-Tenant-Id", Value := [65] }] }

/-- Consumer settings with a given retry count. -/
def sampleSettings (retries : Nat) : KafkaConsumerSettings :=
  { Topic := "orders", NumPartitions := 1, ReplicationFactor := 1, GroupId := "g",
    AutoOffsetReset := "earliest", Retries := retries }

/-- A handler that panics with an error value on every invocation. -/
def failingHandler : ConsumerFunc := fun _ _ => some (.error "handler failed")

/-- A handler that panics with a string on every invocation: `panic("boom")`. -/
def stringPanicHandler : ConsumerFunc := fun _ _ => some (.other "boom")

/-- A handler that panics with a string on its first invocation and returns on
every later one. -/
def stringPanicOnceHandler : ConsumerFunc :=
  fun i _ => if i = 0 then some (.other "boom") else none

/-- A handler that panics with an error value on its first two invocations and
returns on every later one. -/
def failTwiceHandler : ConsumerFunc :=
  fun i _ => if i < 2 then some (.error "transient") else none

/-- Producer settings for topic `orders`. -/
def sampleProducerSettings : KafkaProducerSettings :=
  { Topic := "orders", NumPartitions := 1, ReplicationFactor := 1, Partition := 0,
    Offset := 0, TimeoutFlush := 1500 }

/-- An environment for `Publish` over payloads that are natural numbers: payload
`0` does not serialize, every other payload `n` serializes to the byte `n`. -/
def samplePublishEnv : PublishEnv Nat :=
  { newProducer := none,
    marshal := fun n => if n = 0 then .error "unsupported value" else .ok [n],
    produce := fun _ _ => none,
    newUuid := fun i => [48 + i] }

/-- A tenant id header value. -/
def sampleTenant : String := "11111111-1111-1111-1111-111111111111"

/-- A parser that accepts every text as a UUID. -/
def sampleMustParse : String → Option Uuid := fun s => some { canonical := s }

/-- An active document of another tenant. -/
def foreignActiveDocument : Document :=
  [("tenantId", .uuid { canonical := "22222222-2222-2222-2222-222222222222" }),
   ("active", .bool true)]

/-- A soft-deleted document of the caller's tenant. -/
def ownInactiveDocument : Document :=
  [("tenantId", .uuid { canonical := sampleTenant }), ("active", .bool false)]


/-! ## Theorems: dead-letter routing -/

theorem invocations_append (a b : List Event) :
    invocations (a ++ b) = invocations a ++ invocations b := by
  induction a with
  | nil => rfl
  | cons e es ih => cases e <;> simp [invocations, ih]

theorem produceCalls_append (a b : List Event) :
    produceCalls (a ++ b) = produceCalls a ++ produceCalls b := by
  induction a with
  | nil => rfl
  | cons e es ih => cases e <;> simp [produceCalls, ih]

theorem published_append (a b : List Event) :
    published (a ++ b) = published a ++ published b := by
  induction a with
  | nil => rfl
  | cons e es ih =>
    cases e with
    | produce m ok => cases ok <;> simp [published, ih]
    | _ => simp [published, ih]

theorem deadLetterEvents_append (a b : List Event) :
    deadLetterEvents (a ++ b) = deadLetterEvents a ++ deadLetterEvents b := by
  induction a with
  | nil => rfl
  | cons e es ih => cases e <;> simp [deadLetterEvents, ih]

theorem kafkaSendToDlq_noProducer (B : Broker) (w : World) (err : String)
    (hp : B.newProducer = some err) :
    kafkaSendToDlq B w =
      .panicked (.error err) { w with log := w.log ++ [.newProducer false] } := by
  simp [kafkaSendToDlq, hp, World.emit]

theorem kafkaSendToDlq_nilTopic (B : Broker) (w : World)
    (hp : B.newProducer = none) (ht : w.msg.TopicPartition.Topic = none) :
    kafkaSendToDlq B w =
      .panicked (.error "invalid memory address or nil pointer dereference")
        { w with log := w.log ++ [.newProducer true, .close] } := by
  simp [kafkaSendToDlq, hp, World.emit, ht, deferClose]

theorem kafkaSendToDlq_topicPanics (B : Broker) (w : World) (t : String) (v : PanicValue)
    (hp : B.newProducer = none) (ht : w.msg.TopicPartition.Topic = some t)
    (hc : B.createKafkaTopic
      { Topic := t ++ "_error", NumPartitions := 1, ReplicationFactor := 1 } = some v) :
    kafkaSendToDlq B w =
      .panicked v
        { w with log := w.log ++ [.newProducer true,
            .createKafkaTopic { Topic := t ++ "_error", NumPartitions := 1, ReplicationFactor := 1 },
            .close] } := by
  simp [kafkaSendToDlq, hp, World.emit, ht, deferClose, hc]

theorem kafkaSendToDlq_rejected (B : Broker) (w : World) (t err : String)
    (hp : B.newProducer = none) (ht : w.msg.TopicPartition.Topic = some t)
    (hc : B.createKafkaTopic
      { Topic := t ++ "_error", NumPartitions := 1, ReplicationFactor := 1 } = none)
    (hr : B.produce (rerouted w.msg (t ++ "_error")) = some err) :
    kafkaSendToDlq B w =
      .panicked (.error err)
        { msg := rerouted w.msg (t ++ "_error"), calls := w.calls,
          log := w.log ++ [.newProducer true,
            .createKafkaTopic { Topic := t ++ "_error", NumPartitions := 1, ReplicationFactor := 1 },
            .produce (rerouted w.msg (t ++ "_error")) false, .close] } := by
  simp only [rerouted] at hr
  simp [kafkaSendToDlq, hp, World.emit, ht, deferClose, hc, hr, rerouted]

theorem kafkaSendToDlq_accepted (B : Broker) (w : World) (t : String)
    (hp : B.newProducer = none) (ht : w.msg.TopicPartition.Topic = some t)
    (hc : B.createKafkaTopic
      { Topic := t ++ "_error", NumPartitions := 1, ReplicationFactor := 1 } = none)
    (hr : B.produce (rerouted w.msg (t ++ "_error")) = none) :
    kafkaSendToDlq B w =
      .returned
        { msg := rerouted w.msg (t ++ "_error"), calls := w.calls,
          log := w.log ++ [.newProducer true,
            .createKafkaTopic { Topic := t ++ "_error", NumPartitions := 1, ReplicationFactor := 1 },
            .produce (rerouted w.msg (t ++ "_error")) true, .flush 1500, .close] } := by
  simp only [rerouted] at hr
  simp [kafkaSendToDlq, hp, World.emit, ht, deferClose, hc, hr, rerouted]

/-- Whatever the broker does, the dead-letter step appends events to the trace,
none of them a handler invocation, hands at most one message to the producer,
and that message is the one it leaves in the world. -/
theorem kafkaSendToDlq_trace (B : Broker) (w : World) :
    ∃ es, (kafkaSendToDlq B w).world.log = w.log ++ es ∧
      invocations es = [] ∧
      (kafkaSendToDlq B w).world.calls = w.calls ∧
      (produceCalls es).length ≤ 1 ∧
      (∀ p ∈ produceCalls es, p = (kafkaSendToDlq B w).world.msg) ∧
      ((kafkaSendToDlq B w).isReturned = false → published es = []) := by
  cases hp : B.newProducer with
  | some err =>
    rw [kafkaSendToDlq_noProducer B w err hp]
    exact ⟨[.newProducer false], rfl, rfl, rfl, by simp [produceCalls], by simp [produceCalls],
      fun _ => rfl⟩
  | none =>
    cases ht : w.msg.TopicPartition.Topic with
    | none =>
      rw [kafkaSendToDlq_nilTopic B w hp ht]
      exact ⟨[.newProducer true, .close], rfl, rfl, rfl, by simp [produceCalls],
        by simp [produceCalls], fun _ => rfl⟩
    | some t =>
      cases hc : B.createKafkaTopic
          { Topic := t ++ "_error", NumPartitions := 1, ReplicationFactor := 1 } with
      | some v =>
        rw [kafkaSendToDlq_topicPanics B w t v hp ht hc]
        exact ⟨_, rfl, rfl, rfl, by simp [produceCalls], by simp [produceCalls], fun _ => rfl⟩
      | none =>
        cases hr : B.produce (rerouted w.msg (t ++ "_error")) with
        | some err =>
          rw [kafkaSendToDlq_rejected B w t err hp ht hc hr]
          exact ⟨_, rfl, rfl, rfl, by simp [produceCalls],
            by simp [produceCalls, Outcome.world], fun _ => rfl⟩
        | none =>
          rw [kafkaSendToDlq_accepted B w t hp ht hc hr]
          exact ⟨_, rfl, rfl, rfl, by simp [produceCalls],
            by simp [produceCalls, Outcome.world], by simp [Outcome.isReturned]⟩

/-- C2: dead-letter routing leaves key, value, headers and offset of the message
as they were; the message after routing is the original with at most its topic
and partition replaced, and the same holds for the message handed to the
producer. -/
theorem kafkaSendToDlq_preserves_payload (B : Broker) (w : World) :
    (kafkaSendToDlq B w).world.msg.Key = w.msg.Key ∧
    (kafkaSendToDlq B w).world.msg.Value = w.msg.Value ∧
    (kafkaSendToDlq B w).world.msg.Headers = w.msg.Headers ∧
    (kafkaSendToDlq B w).world.msg.TopicPartition.Offset = w.msg.TopicPartition.Offset ∧
    (kafkaSendToDlq B w).world.msg =
      { w.msg with
        TopicPartition :=
          { w.msg.TopicPartition with
            Topic := (kafkaSendToDlq B w).world.msg.TopicPartition.Topic,
            Partition := (kafkaSendToDlq B w).world.msg.TopicPartition.Partition } } ∧
    ∃ es, (kafkaSendToDlq B w).world.log = w.log ++ es ∧
      ∀ p ∈ produceCalls es, p.Key = w.msg.Key ∧ p.Value = w.msg.Value ∧
        p.Headers = w.msg.Headers ∧
        p.TopicPartition.Offset = w.msg.TopicPartition.Offset := by
  have key : (kafkaSendToDlq B w).world.msg =
      { w.msg with
        TopicPartition :=
          { w.msg.TopicPartition with
            Topic := (kafkaSendToDlq B w).world.msg.TopicPartition.Topic,
            Partition := (kafkaSendToDlq B w).world.msg.TopicPartition.Partition } } := by
    cases hp : B.newProducer with
    | some err => rw [kafkaSendToDlq_noProducer B w err hp]; rfl
    | none =>
      cases ht : w.msg.TopicPartition.Topic with
      | none => rw [kafkaSendToDlq_nilTopic B w hp ht]; rfl
      | some t =>
        cases hc : B.createKafkaTopic
            { Topic := t ++ "_error", NumPartitions := 1, ReplicationFactor := 1 } with
        | some v => rw [kafkaSendToDlq_topicPanics B w t v hp ht hc]; rfl
        | none =>
          cases hr : B.produce (rerouted w.msg (t ++ "_error")) with
          | some err => rw [kafkaSendToDlq_rejected B w t err hp ht hc hr]; rfl
          | none => rw [kafkaSendToDlq_accepted B w t hp ht hc hr]; rfl
  have hK : (kafkaSendToDlq B w).world.msg.Key = w.msg.Key := by rw [key]
  have hV : (kafkaSendToDlq B w).world.msg.Value = w.msg.Value := by rw [key]
  have hH : (kafkaSendToDlq B w).world.msg.Headers = w.msg.Headers := by rw [key]
  have hO : (kafkaSendToDlq B w).world.msg.TopicPartition.Offset =
      w.msg.TopicPartition.Offset := by rw [key]
  obtain ⟨es, hlog, _, _, _, hmsg, _⟩ := kafkaSendToDlq_trace B w
  refine ⟨hK, hV, hH, hO, key, es, hlog, ?_⟩
  intro p hpmem
  rw [hmsg p hpmem]
  exact ⟨hK, hV, hH, hO⟩

/-- Witness for C2: the sample message routed through a healthy broker. -/
theorem kafkaSendToDlq_preserves_payload_witness :
    (kafkaSendToDlq Broker.healthy (World.start sampleMessage)).world.msg.Key =
      (World.start sampleMessage).msg.Key ∧
    (kafkaSendToDlq Broker.healthy (World.start sampleMessage)).world.msg.Value =
      (World.start sampleMessage).msg.Value ∧
    (kafkaSendToDlq Broker.healthy (World.start sampleMessage)).world.msg.Headers =
      (World.start sampleMessage).msg.Headers ∧
    (kafkaSendToDlq Broker.healthy (World.start sampleMessage)).world.msg.TopicPartition.Offset =
      (World.start sampleMessage).msg.TopicPartition.Offset :=
  ⟨(kafkaSendToDlq_preserves_payload Broker.healthy (World.start sampleMessage)).1,
   (kafkaSendToDlq_preserves_payload Broker.healthy (World.start sampleMessage)).2.1,
   (kafkaSendToDlq_preserves_payload Broker.healthy (World.start sampleMessage)).2.2.1,
   (kafkaSendToDlq_preserves_payload Broker.healthy (World.start sampleMessage)).2.2.2.1⟩

/-- C3: for a message whose topic is `t`, once the producer handle exists and
the provisioner returns, the dead-letter step asks the provisioner for the topic
`t ++ "_error"` with one partition and replication factor one, and then hands the
producer the message with its topic set to that same name and its partition set
to `PartitionAny`; that is also the message it leaves behind. -/
theorem kafkaSendToDlq_routes_to_error_topic (B : Broker) (w : World) (t : String)
    (ht : w.msg.TopicPartition.Topic = some t)
    (hp : B.newProducer = none)
    (hc : B.createKafkaTopic
      { Topic := t ++ "_error", NumPartitions := 1, ReplicationFactor := 1 } = none) :
    (kafkaSendToDlq B w).world.log =
      w.log ++
        [.newProducer true,
         .createKafkaTopic
           { Topic := t ++ "_error", NumPartitions := 1, ReplicationFactor := 1 },
         .produce (rerouted w.msg (t ++ "_error"))
           (B.produce (rerouted w.msg (t ++ "_error"))).isNone] ++
        (if (B.produce (rerouted w.msg (t ++ "_error"))).isNone
          then [.flush 1500, .close] else [.close]) ∧
    (rerouted w.msg (t ++ "_error")).TopicPartition.Topic = some (t ++ "_error") ∧
    (rerouted w.msg (t ++ "_error")).TopicPartition.Partition = PartitionAny ∧
    (kafkaSendToDlq B w).world.msg = rerouted w.msg (t ++ "_error") := by
  cases hr : B.produce (rerouted w.msg (t ++ "_error")) with
  | some err =>
    rw [kafkaSendToDlq_rejected B w t err hp ht hc hr]
    exact ⟨by simp [Outcome.world], rfl, rfl, rfl⟩
  | none =>
    rw [kafkaSendToDlq_accepted B w t hp ht hc hr]
    exact ⟨by simp [Outcome.world], rfl, rfl, rfl⟩

/-- Witness for C3: a message on topic `orders` and a healthy broker; the derived
name is `orders_error`. -/
theorem kafkaSendToDlq_routes_to_error_topic_witness :
    (kafkaSendToDlq Broker.healthy (World.start sampleMessage)).world.log =
      (World.start sampleMessage).log ++
        [.newProducer true,
         .createKafkaTopic
           { Topic := "orders" ++ "_error", NumPartitions := 1, ReplicationFactor := 1 },
         .produce (rerouted (World.start sampleMessage).msg ("orders" ++ "_error"))
           (Broker.healthy.produce
             (rerouted (World.start sampleMessage).msg ("orders" ++ "_error"))).isNone] ++
        (if (Broker.healthy.produce
            (rerouted (World.start sampleMessage).msg ("orders" ++ "_error"))).isNone
          then [.flush 1500, .close] else [.close]) ∧
    (rerouted (World.start sampleMessage).msg ("orders" ++ "_error")).TopicPartition.Topic =
      some ("orders" ++ "_error") ∧
    (rerouted (World.start sampleMessage).msg ("orders" ++ "_error")).TopicPartition.Partition =
      PartitionAny ∧
    (kafkaSendToDlq Broker.healthy (World.start sampleMessage)).world.msg =
      rerouted (World.start sampleMessage).msg ("orders" ++ "_error") :=
  kafkaSendToDlq_routes_to_error_topic Broker.healthy (World.start sampleMessage) "orders"
    rfl rfl rfl

/-- The dead-letter topic of `orders` is `orders_error`, and the message sent
there differs from the consumed one in topic and partition only. -/
theorem kafkaSendToDlq_orders_example :
    (kafkaSendToDlq Broker.healthy (World.start sampleMessage)).world.msg.TopicPartition.Topic =
      some "orders_error" ∧
    published (kafkaSendToDlq Broker.healthy (World.start sampleMessage)).world.log =
      [{ sampleMessage with
         TopicPartition :=
           { sampleMessage.TopicPartition with
             Topic := some "orders_error", Partition := -1 } }] := by
  decide

/-! ## Theorems: the retry envelope -/

theorem invoke_returned (fn : ConsumerFunc) (r : Nat) (w : World)
    (k : World → Outcome World) (h : fn w.calls (attemptContext w.msg r) = none) :
    kafkaCallFnWithResilence.invoke fn r w k = .returned (w.invoked r) := by
  simp [kafkaCallFnWithResilence.invoke, h]

theorem invoke_other (fn : ConsumerFunc) (r : Nat) (w : World)
    (k : World → Outcome World) (d : String)
    (h : fn w.calls (attemptContext w.msg r) = some (.other d)) :
    kafkaCallFnWithResilence.invoke fn r w k =
      .panicked (.error "interface conversion: value is not an error") (w.invoked r) := by
  simp [kafkaCallFnWithResilence.invoke, h]

theorem invoke_error (fn : ConsumerFunc) (r : Nat) (w : World)
    (k : World → Outcome World) (e : String)
    (h : fn w.calls (attemptContext w.msg r) = some (.error e)) :
    kafkaCallFnWithResilence.invoke fn r w k = k ((w.invoked r).emit (.printed e)) := by
  simp [kafkaCallFnWithResilence.invoke, h]

theorem attempt_succ_succ (B : Broker) (fn : ConsumerFunc) (n : Nat) (w : World) :
    kafkaCallFnWithResilence.attempt B fn (n + 2) w =
      kafkaCallFnWithResilence.invoke fn (n + 2) w
        (kafkaCallFnWithResilence.attempt B fn (n + 1)) := by
  rw [kafkaCallFnWithResilence.attempt]

theorem attempt_le_one (B : Broker) (fn : ConsumerFunc) (r : Nat) (w : World) (hr : r ≤ 1) :
    kafkaCallFnWithResilence.attempt B fn r w =
      kafkaCallFnWithResilence.invoke fn r w (kafkaSendToDlq B) := by
  match r, hr with
  | 0, _ => rw [kafkaCallFnWithResilence.attempt]
  | 1, _ => rw [kafkaCallFnWithResilence.attempt]

theorem attemptContexts_succ_succ (msg : Message) (n : Nat) :
    attemptContexts msg (n + 2) = attemptContext msg (n + 2) :: attemptContexts msg (n + 1) := by
  rw [attemptContexts]

theorem attemptContexts_le_one (msg : Message) (r : Nat) (hr : r ≤ 1) :
    attemptContexts msg r = [attemptContext msg r] := by
  match r, hr with
  | 0, _ => rfl
  | 1, _ => rfl

theorem attemptContexts_length (msg : Message) (N : Nat) :
    (attemptContexts msg N).length = max N 1 := by
  induction N using Nat.strongRecOn with
  | _ N ih =>
    match N with
    | 0 => rfl
    | 1 => rfl
    | n + 2 =>
      rw [attemptContexts_succ_succ, List.length_cons, ih (n + 1) (by omega)]
      omega

theorem attemptContexts_getElem? (msg : Message) (N i : Nat) (hi : i < max N 1) :
    (attemptContexts msg N)[i]? = some (attemptContext msg (N - i)) := by
  induction N using Nat.strongRecOn generalizing i with
  | _ N ih =>
    match N with
    | 0 =>
      have : i = 0 := by omega
      subst this; rfl
    | 1 =>
      have : i = 0 := by omega
      subst this; rfl
    | n + 2 =>
      rw [attemptContexts_succ_succ]
      cases i with
      | zero => simp
      | succ j =>
        rw [List.getElem?_cons_succ, ih (n + 1) (by omega) j (by omega)]
        congr 2
        omega

theorem invoked_msg (w : World) (r : Nat) : (w.invoked r).msg = w.msg := rfl

/-- If the handler panics with an error value on each of its next `k`
invocations and `k` is less than the number of attempts the envelope can make,
the envelope reaches the activation with `N - k` retries left, having invoked the
handler `k` times and done nothing else but print. -/
theorem attempt_after_failures (B : Broker) (fn : ConsumerFunc) (k : Nat) :
    ∀ (N : Nat) (w : World), k < max N 1 →
      (∀ j, j < k → ∀ c, ∃ e, fn (w.calls + j) c = some (.error e)) →
      ∃ w', kafkaCallFnWithResilence.attempt B fn N w =
          kafkaCallFnWithResilence.attempt B fn (N - k) w' ∧
        w'.msg = w.msg ∧ w'.calls = w.calls + k ∧
        invocations w'.log = invocations w.log ++ (attemptContexts w.msg N).take k ∧
        deadLetterEvents w'.log = deadLetterEvents w.log := by
  induction k with
  | zero =>
    intro N w _ _
    exact ⟨w, rfl, rfl, rfl, by simp, rfl⟩
  | succ k ih =>
    intro N w hk hfn
    match N, hk with
    | n + 2, hk =>
      obtain ⟨e, he⟩ := hfn 0 (by omega) (attemptContext w.msg (n + 2))
      rw [Nat.add_zero] at he
      obtain ⟨w', hrun, hmsg, hcalls, hinv, hdl⟩ :=
        ih (n + 1) (((w.invoked (n + 2)).emit (.printed e))) (by omega)
          (by
            intro j hj c
            have := hfn (j + 1) (by omega) c
            simpa [World.emit, World.invoked, Nat.add_assoc, Nat.add_comm 1 j] using this)
      refine ⟨w', ?_, ?_, ?_, ?_, ?_⟩
      · rw [attempt_succ_succ, invoke_error fn (n + 2) w _ e he, hrun]
        congr 1
        omega
      · rw [hmsg]; rfl
      · rw [hcalls]; simp [World.emit, World.invoked]; omega
      · rw [hinv, attemptContexts_succ_succ]
        simp [World.emit, World.invoked, invocations_append, invocations]
      · rw [hdl]
        simp [World.emit, World.invoked, deadLetterEvents_append, deadLetterEvents]

theorem attempt_returned (B : Broker) (fn : ConsumerFunc) (r : Nat) (w : World)
    (h : fn w.calls (attemptContext w.msg r) = none) :
    kafkaCallFnWithResilence.attempt B fn r w = .returned (w.invoked r) := by
  match r with
  | 0 => rw [attempt_le_one B fn 0 w (by omega), invoke_returned fn 0 w _ h]
  | 1 => rw [attempt_le_one B fn 1 w (by omega), invoke_returned fn 1 w _ h]
  | n + 2 => rw [attempt_succ_succ, invoke_returned fn (n + 2) w _ h]

theorem attempt_other (B : Broker) (fn : ConsumerFunc) (r : Nat) (w : World) (d : String)
    (h : fn w.calls (attemptContext w.msg r) = some (.other d)) :
    kafkaCallFnWithResilence.attempt B fn r w =
      .panicked (.error "interface conversion: value is not an error") (w.invoked r) := by
  match r with
  | 0 => rw [attempt_le_one B fn 0 w (by omega), invoke_other fn 0 w _ d h]
  | 1 => rw [attempt_le_one B fn 1 w (by omega), invoke_other fn 1 w _ d h]
  | n + 2 => rw [attempt_succ_succ, invoke_other fn (n + 2) w _ d h]

theorem attemptContexts_take_succ (msg : Message) (N k : Nat) (hk : k < max N 1) :
    (attemptContexts msg N).take (k + 1) =
      (attemptContexts msg N).take k ++ [attemptContext msg (N - k)] := by
  rw [List.take_succ, attemptContexts_getElem? msg N k hk]
  rfl

theorem attemptContexts_take_all (msg : Message) (N : Nat) :
    (attemptContexts msg N).take (max N 1 - 1) ++ [attemptContext msg (N - (max N 1 - 1))] =
      attemptContexts msg N := by
  rw [← attemptContexts_take_succ msg N (max N 1 - 1) (by omega)]
  apply List.take_of_length_le
  rw [attemptContexts_length]
  omega

/-- Every run of the envelope invokes the handler at least once, and the
contexts it passes are an initial segment of `attemptContexts`. -/
theorem attempt_invocations (B : Broker) (fn : ConsumerFunc) (N : Nat) :
    ∀ w : World, ∃ j, 1 ≤ j ∧
      invocations (kafkaCallFnWithResilence.attempt B fn N w).world.log =
        invocations w.log ++ (attemptContexts w.msg N).take j := by
  induction N using Nat.strongRecOn with
  | _ N ih =>
    intro w
    have base : invocations (w.invoked N).log =
        invocations w.log ++ (attemptContexts w.msg N).take 1 := by
      have h0 := attemptContexts_take_succ w.msg N 0 (by omega)
      simp only [Nat.zero_add, List.take_zero, List.nil_append, Nat.sub_zero] at h0
      rw [h0]
      simp [World.invoked, invocations_append, invocations]
    cases hfn : fn w.calls (attemptContext w.msg N) with
    | none =>
      rw [attempt_returned B fn N w hfn]
      exact ⟨1, le_refl 1, base⟩
    | some v =>
      cases v with
      | other d =>
        rw [attempt_other B fn N w d hfn]
        exact ⟨1, le_refl 1, base⟩
      | error e =>
        have hw2 : invocations ((w.invoked N).emit (.printed e)).log =
            invocations w.log ++ (attemptContexts w.msg N).take 1 := by
          rw [← base]
          simp [World.emit, invocations_append, invocations]
        match N with
        | 0 =>
          rw [attempt_le_one B fn 0 w (by omega), invoke_error fn 0 w _ e hfn]
          obtain ⟨es, hlog, hinv, _⟩ := kafkaSendToDlq_trace B ((w.invoked 0).emit (.printed e))
          refine ⟨1, le_refl 1, ?_⟩
          rw [hlog, invocations_append, hinv, List.append_nil, hw2]
        | 1 =>
          rw [attempt_le_one B fn 1 w (by omega), invoke_error fn 1 w _ e hfn]
          obtain ⟨es, hlog, hinv, _⟩ := kafkaSendToDlq_trace B ((w.invoked 1).emit (.printed e))
          refine ⟨1, le_refl 1, ?_⟩
          rw [hlog, invocations_append, hinv, List.append_nil, hw2]
        | n + 2 =>
          rw [attempt_succ_succ, invoke_error fn (n + 2) w _ e hfn]
          obtain ⟨j, hj, hrec⟩ := ih (n + 1) (by omega) ((w.invoked (n + 2)).emit (.printed e))
          refine ⟨j + 1, by omega, ?_⟩
          rw [hrec, hw2, attemptContexts_succ_succ]
          simp [World.emit, World.invoked]

/-- A handler that panics with an error value on each of the `max N 1` attempts
is invoked exactly that many times, with the contexts of `attemptContexts`; the
envelope does nothing else but print, and then runs the dead-letter step once,
whose outcome is the outcome of the envelope. -/
theorem attempt_exhausted (B : Broker) (fn : ConsumerFunc) (N : Nat) (w : World)
    (hfn : ∀ j, j < max N 1 → ∀ c, ∃ e, fn (w.calls + j) c = some (.error e)) :
    ∃ w', kafkaCallFnWithResilence.attempt B fn N w = kafkaSendToDlq B w' ∧
      w'.msg = w.msg ∧ w'.calls = w.calls + max N 1 ∧
      invocations w'.log = invocations w.log ++ attemptContexts w.msg N ∧
      deadLetterEvents w'.log = deadLetterEvents w.log := by
  obtain ⟨w1, hrun, hmsg, hcalls, hinv, hdl⟩ :=
    attempt_after_failures B fn (max N 1 - 1) N w (by omega)
      (fun j hj c => hfn j (by omega) c)
  obtain ⟨e, he⟩ := hfn (max N 1 - 1) (by omega) (attemptContext w1.msg (N - (max N 1 - 1)))
  rw [← hcalls] at he
  refine ⟨(w1.invoked (N - (max N 1 - 1))).emit (.printed e), ?_, ?_, ?_, ?_, ?_⟩
  · rw [hrun, attempt_le_one B fn _ w1 (by omega), invoke_error fn _ w1 _ e he]
  · simp [World.emit, World.invoked, hmsg]
  · simp [World.emit, World.invoked, hcalls]; omega
  · simp only [World.emit, World.invoked, invocations_append, invocations, hinv, hmsg,
      List.append_nil, List.append_assoc]
    rw [attemptContexts_take_all]
  · simp [World.emit, World.invoked, deadLetterEvents_append, deadLetterEvents, hdl]

/-- A handler that panics with an error value on its next `k` invocations,
`k < max N 1`, and returns on the one after is invoked `k + 1` times; the
envelope returns, the message is untouched and no dead-letter event occurs. -/
theorem attempt_recovers (B : Broker) (fn : ConsumerFunc) (N k : Nat) (w : World)
    (hk : k < max N 1)
    (hfail : ∀ j, j < k → ∀ c, ∃ e, fn (w.calls + j) c = some (.error e))
    (hok : ∀ c, fn (w.calls + k) c = none) :
    ∃ w', kafkaCallFnWithResilence.attempt B fn N w = .returned w' ∧
      w'.msg = w.msg ∧ w'.calls = w.calls + (k + 1) ∧
      invocations w'.log = invocations w.log ++ (attemptContexts w.msg N).take (k + 1) ∧
      deadLetterEvents w'.log = deadLetterEvents w.log := by
  obtain ⟨w1, hrun, hmsg, hcalls, hinv, hdl⟩ := attempt_after_failures B fn k N w hk hfail
  have he := hok (attemptContext w1.msg (N - k))
  rw [← hcalls] at he
  refine ⟨w1.invoked (N - k), ?_, ?_, ?_, ?_, ?_⟩
  · rw [hrun, attempt_returned B fn _ w1 he]
  · simp [World.invoked, hmsg]
  · simp [World.invoked, hcalls]; omega
  · simp only [World.invoked, invocations_append, invocations, hinv, hmsg,
      List.append_assoc]
    rw [attemptContexts_take_succ w.msg N k hk]
  · simp [World.invoked, deadLetterEvents_append, deadLetterEvents, hdl]

/-- C1 (evaluation at a failing input): with three retries and a healthy broker,
a handler that panics with a string on every invocation is invoked once, not
three times; the envelope itself panics, and the dead-letter step never runs. -/
theorem kafkaCallFnWithResilence_string_panic_not_retried :
    (invocations (kafkaCallFnWithResilence Broker.healthy stringPanicHandler
        (sampleSettings 3) (World.start sampleMessage)).world.log).length = 1 ∧
    deadLetterEvents (kafkaCallFnWithResilence Broker.healthy stringPanicHandler
        (sampleSettings 3) (World.start sampleMessage)).world.log = [] ∧
    published (kafkaCallFnWithResilence Broker.healthy stringPanicHandler
        (sampleSettings 3) (World.start sampleMessage)).world.log = [] ∧
    (kafkaCallFnWithResilence Broker.healthy stringPanicHandler
        (sampleSettings 3) (World.start sampleMessage)).isReturned = false := by
  decide

/-- For handlers whose panics carry error values the envelope exhausts its retries:
the handler is invoked `max N 1` times, then the dead-letter step runs once, and
when the broker accepts the message exactly one message is published, after the
last invocation. -/
theorem kafkaCallFnWithResilence_error_panics_exhaust (B : Broker) (fn : ConsumerFunc)
    (kcs : KafkaConsumerSettings) (msg : Message)
    (hfn : ∀ j c, ∃ e, fn j c = some (.error e)) :
    ∃ w', kafkaCallFnWithResilence B fn kcs (World.start msg) = kafkaSendToDlq B w' ∧
      w'.msg = msg ∧ w'.calls = max kcs.Retries 1 ∧
      invocations w'.log = attemptContexts msg kcs.Retries ∧
      deadLetterEvents w'.log = [] ∧
      (invocations (kafkaSendToDlq B w').world.log).length = max kcs.Retries 1 ∧
      (produceCalls (kafkaSendToDlq B w').world.log).length ≤ 1 := by
  obtain ⟨w', hrun, hmsg, hcalls, hinv, hdl⟩ :=
    attempt_exhausted B fn kcs.Retries (World.start msg) (fun j _ c => by
      simpa [World.start] using hfn j c)
  have hpc : produceCalls w'.log = [] := by
    have : ∀ es : List Event, deadLetterEvents es = [] → produceCalls es = [] := by
      intro es
      induction es with
      | nil => intro _; rfl
      | cons e es ih => cases e <;> simp_all [deadLetterEvents, produceCalls]
    exact this _ (by simpa [World.start, deadLetterEvents] using hdl)
  obtain ⟨es, hlog, hies, _, hlen, _⟩ := kafkaSendToDlq_trace B w'
  refine ⟨w', hrun, hmsg, by simpa [World.start] using hcalls,
    by simpa [World.start, invocations] using hinv,
    by simpa [World.start, deadLetterEvents] using hdl, ?_, ?_⟩
  · rw [hlog, invocations_append, hies, List.append_nil, hinv]
    simp [World.start, invocations, attemptContexts_length]
  · rw [hlog, produceCalls_append, hpc]
    simpa using hlen

/-- C4 (evaluation at a failing input): with a healthy broker, so that
dead-letter routing would succeed, a handler that panics with a string makes the
envelope panic instead of returning: the type assertion on the recovered value
fails, and neither a retry nor the dead-letter step takes place. -/
theorem kafkaCallFnWithResilence_reraises_string_panic :
    kafkaCallFnWithResilence Broker.healthy stringPanicHandler (sampleSettings 1)
        (World.start sampleMessage) =
      .panicked (.error "interface conversion: value is not an error")
        { msg := sampleMessage, calls := 1,
          log := [.handlerInvoked (attemptContext sampleMessage 1)] } := by
  decide

/-- C7: when every attempt of the handler panics with an error value, so that the
retries are used up, and the dead-letter step fails, because no producer can be
created or because the producer rejects the message, the envelope panics with
that error. This holds for every retry count and from every world, hence for the
activation at every depth of the recursion. The handler has then been invoked
`max N 1` times and no more, at most one message was handed to the producer, and
none was accepted. -/
theorem kafkaCallFnWithResilence_dead_letter_failure_propagates (B : Broker)
    (fn : ConsumerFunc) (kcs : KafkaConsumerSettings) (w : World) (err : String)
    (hfn : ∀ j c, ∃ e, fn j c = some (.error e))
    (hdlq : B.newProducer = some err ∨
      (B.newProducer = none ∧ ∃ t, w.msg.TopicPartition.Topic = some t ∧
        B.createKafkaTopic
          { Topic := t ++ "_error", NumPartitions := 1, ReplicationFactor := 1 } = none ∧
        B.produce (rerouted w.msg (t ++ "_error")) = some err)) :
    ∃ w', kafkaCallFnWithResilence B fn kcs w = .panicked (.error err) w' ∧
      w'.calls = w.calls + max kcs.Retries 1 ∧
      invocations w'.log = invocations w.log ++ attemptContexts w.msg kcs.Retries ∧
      (produceCalls w'.log).length ≤ (produceCalls w.log).length + 1 ∧
      published w'.log = published w.log := by
  obtain ⟨w1, hrun, hmsg, hcalls, hinv, hdl⟩ :=
    attempt_exhausted B fn kcs.Retries w (fun j _ c => hfn (w.calls + j) c)
  have hsame : ∀ a b : List Event, deadLetterEvents a = deadLetterEvents b →
      produceCalls a = produceCalls b ∧ published a = published b := by
    have hp : ∀ es : List Event, produceCalls es = produceCalls (deadLetterEvents es) := by
      intro es
      induction es with
      | nil => rfl
      | cons e es ih => cases e <;> simp_all [deadLetterEvents, produceCalls]
    have hq : ∀ es : List Event, published es = published (deadLetterEvents es) := by
      intro es
      induction es with
      | nil => rfl
      | cons e es ih =>
        cases e with
        | produce m ok => cases ok <;> simp_all [deadLetterEvents, published]
        | _ => simp_all [deadLetterEvents, published]
    intro a b hab
    exact ⟨by rw [hp a, hp b, hab], by rw [hq a, hq b, hab]⟩
  obtain ⟨hpc, hpub⟩ := hsame _ _ hdl
  unfold kafkaCallFnWithResilence
  rw [hrun]
  rcases hdlq with hp | ⟨hp, t, ht, hc, hr⟩
  · rw [kafkaSendToDlq_noProducer B w1 err hp]
    refine ⟨_, rfl, hcalls, ?_, ?_, ?_⟩
    · simp [invocations_append, invocations, hinv]
    · simp [produceCalls_append, produceCalls, hpc]
    · simp [published_append, published, hpub]
  · rw [← hmsg] at ht hr
    rw [kafkaSendToDlq_rejected B w1 t err hp ht hc hr]
    refine ⟨_, rfl, hcalls, ?_, ?_, ?_⟩
    · simp [invocations_append, invocations, hinv]
    · simp [produceCalls_append, produceCalls, hpc]
    · simp [published_append, published, hpub]

/-- Witness for C7: three retries and a handler that always fails, once with a
broker no producer can connect to and once with a producer that rejects the
message. -/
theorem kafkaCallFnWithResilence_dead_letter_failure_propagates_witness :
    (∃ w', kafkaCallFnWithResilence Broker.unreachable failingHandler (sampleSettings 3)
        (World.start sampleMessage) = .panicked (.error "connection refused") w' ∧
      w'.calls = (World.start sampleMessage).calls + max (sampleSettings 3).Retries 1 ∧
      invocations w'.log = invocations (World.start sampleMessage).log ++
        attemptContexts (World.start sampleMessage).msg (sampleSettings 3).Retries ∧
      (produceCalls w'.log).length ≤ (produceCalls (World.start sampleMessage).log).length + 1 ∧
      published w'.log = published (World.start sampleMessage).log) ∧
    (∃ w', kafkaCallFnWithResilence Broker.rejecting failingHandler (sampleSettings 3)
        (World.start sampleMessage) = .panicked (.error "queue full") w' ∧
      w'.calls = (World.start sampleMessage).calls + max (sampleSettings 3).Retries 1 ∧
      invocations w'.log = invocations (World.start sampleMessage).log ++
        attemptContexts (World.start sampleMessage).msg (sampleSettings 3).Retries ∧
      (produceCalls w'.log).length ≤ (produceCalls (World.start sampleMessage).log).length + 1 ∧
      published w'.log = published (World.start sampleMessage).log) :=
  ⟨kafkaCallFnWithResilence_dead_letter_failure_propagates Broker.unreachable failingHandler
      (sampleSettings 3) (World.start sampleMessage) "connection refused"
      (fun _ _ => ⟨"handler failed", rfl⟩) (Or.inl rfl),
   kafkaCallFnWithResilence_dead_letter_failure_propagates Broker.rejecting failingHandler
      (sampleSettings 3) (World.start sampleMessage) "queue full"
      (fun _ _ => ⟨"handler failed", rfl⟩) (Or.inr ⟨rfl, "orders", rfl, rfl, rfl⟩)⟩

/-- C8 (evaluation at a failing input): with three retries, a handler that
panics with a string on its first invocation and would return on the second is
invoked once, not twice, and the envelope panics instead of returning. -/
theorem kafkaCallFnWithResilence_string_panic_then_success :
    (invocations (kafkaCallFnWithResilence Broker.healthy stringPanicOnceHandler
        (sampleSettings 3) (World.start sampleMessage)).world.log).length = 1 ∧
    (kafkaCallFnWithResilence Broker.healthy stringPanicOnceHandler
        (sampleSettings 3) (World.start sampleMessage)).world.calls = 1 ∧
    (kafkaCallFnWithResilence Broker.healthy stringPanicOnceHandler
        (sampleSettings 3) (World.start sampleMessage)).isReturned = false := by
  decide

/-- For handlers whose panics carry error values the envelope recovers:
after `k < max N 1` failed invocations and a successful one the handler has been
invoked `k + 1` times, the envelope returns, the message is unchanged and the
dead-letter step has not run. -/
theorem kafkaCallFnWithResilence_error_panics_then_success (B : Broker) (fn : ConsumerFunc)
    (kcs : KafkaConsumerSettings) (msg : Message) (k : Nat)
    (hk : k < max kcs.Retries 1)
    (hfail : ∀ j, j < k → ∀ c, ∃ e, fn j c = some (.error e))
    (hok : ∀ c, fn k c = none) :
    ∃ w', kafkaCallFnWithResilence B fn kcs (World.start msg) = .returned w' ∧
      w'.msg = msg ∧ w'.calls = k + 1 ∧
      (invocations w'.log).length = k + 1 ∧
      invocations w'.log = (attemptContexts msg kcs.Retries).take (k + 1) ∧
      deadLetterEvents w'.log = [] := by
  obtain ⟨w', hrun, hmsg, hcalls, hinv, hdl⟩ :=
    attempt_recovers B fn kcs.Retries k (World.start msg) hk
      (fun j hj c => by simpa [World.start] using hfail j hj c)
      (fun c => by simpa [World.start] using hok c)
  have hinv' : invocations w'.log = (attemptContexts msg kcs.Retries).take (k + 1) := by
    simpa [World.start, invocations] using hinv
  refine ⟨w', hrun, hmsg, by simpa [World.start] using hcalls, ?_, hinv',
    by simpa [World.start, deadLetterEvents] using hdl⟩
  rw [hinv', List.length_take, attemptContexts_length]
  omega

/-- C9: in every run of the envelope, whatever the handler and the broker do, the
first attempt is made with `RemainingRetries = N` and `Faulted = (N = 0)`, and the
attempt with index `i`, when it is made, has `i < max N 1` and carries the
original message, `RemainingRetries = N - i` and `Faulted = (N - i = 0)`; so
`RemainingRetries` is at least 1 when `N` is, and `Faulted` is set only when
`N = 0`. When every attempt panics with an error value all `max N 1` attempts
are made. -/
theorem kafkaCallFnWithResilence_attempt_contexts (B : Broker) (fn : ConsumerFunc)
    (kcs : KafkaConsumerSettings) (msg : Message) :
    (invocations (kafkaCallFnWithResilence B fn kcs (World.start msg)).world.log)[0]? =
      some { RemainingRetries := kcs.Retries, Faulted := decide (kcs.Retries = 0), Msg := msg } ∧
    (∀ i c,
      (invocations (kafkaCallFnWithResilence B fn kcs (World.start msg)).world.log)[i]? = some c →
        i < max kcs.Retries 1 ∧ c.Msg = msg ∧
        c.RemainingRetries = kcs.Retries - i ∧
        c.Faulted = decide (kcs.Retries - i = 0) ∧
        (1 ≤ kcs.Retries → 1 ≤ c.RemainingRetries) ∧
        (c.Faulted = true → kcs.Retries = 0)) ∧
    ((∀ j c, ∃ e, fn j c = some (.error e)) →
      (invocations (kafkaCallFnWithResilence B fn kcs (World.start msg)).world.log).length =
        max kcs.Retries 1) := by
  obtain ⟨j, hj, hinv⟩ := attempt_invocations B fn kcs.Retries (World.start msg)
  have hinv' : invocations (kafkaCallFnWithResilence B fn kcs (World.start msg)).world.log =
      (attemptContexts msg kcs.Retries).take j := by
    simpa [World.start, invocations, kafkaCallFnWithResilence] using hinv
  refine ⟨?_, ?_, ?_⟩
  · rw [hinv', List.getElem?_take_of_lt (by omega),
      attemptContexts_getElem? msg kcs.Retries 0 (by omega)]
    rfl
  · intro i c hc
    rw [hinv'] at hc
    have hij : i < j := by
      by_contra hcon
      rw [List.getElem?_take_eq_none (by omega)] at hc
      exact Option.noConfusion hc
    rw [List.getElem?_take_of_lt hij] at hc
    have hlt : i < max kcs.Retries 1 := by
      by_contra hcon
      have : (attemptContexts msg kcs.Retries)[i]? = none := by
        apply List.getElem?_eq_none
        rw [attemptContexts_length]
        omega
      rw [this] at hc
      exact Option.noConfusion hc
    rw [attemptContexts_getElem? msg kcs.Retries i hlt] at hc
    have hc' : c = attemptContext msg (kcs.Retries - i) := (Option.some.inj hc).symm
    subst hc'
    refine ⟨hlt, rfl, rfl, rfl, ?_, ?_⟩
    · intro h1
      show 1 ≤ kcs.Retries - i
      omega
    · intro hf
      have : kcs.Retries - i = 0 := by simpa [attemptContext] using hf
      omega
  · intro hfn
    obtain ⟨w', hrun, _, _, _, _, hlen, _⟩ :=
      kafkaCallFnWithResilence_error_panics_exhaust B fn kcs msg hfn
    rw [hrun]
    exact hlen

/-- Witness for C9: the third attempt of a run with three retries. -/
theorem kafkaCallFnWithResilence_attempt_contexts_witness :
    2 < max (sampleSettings 3).Retries 1 ∧
    (attemptContext sampleMessage 1).Msg = sampleMessage ∧
    (attemptContext sampleMessage 1).RemainingRetries = (sampleSettings 3).Retries - 2 ∧
    (attemptContext sampleMessage 1).Faulted = decide ((sampleSettings 3).Retries - 2 = 0) ∧
    (1 ≤ (sampleSettings 3).Retries → 1 ≤ (attemptContext sampleMessage 1).RemainingRetries) ∧
    ((attemptContext sampleMessage 1).Faulted = true → (sampleSettings 3).Retries = 0) :=
  (kafkaCallFnWithResilence_attempt_contexts Broker.healthy failingHandler (sampleSettings 3)
    sampleMessage).2.1 2 (attemptContext sampleMessage 1) (by decide)


/-! ## Theorems: the producer -/

theorem hasCorrelationID_foldl (hs : List Header) (acc : Bool) :
    hs.foldl
        (fun has v =>
          if v.Key == correlationKey && decide (v.Value.length > 0) then true else has)
        acc =
      (acc || hs.any (fun v => v.Key == correlationKey && decide (v.Value.length > 0))) := by
  induction hs generalizing acc with
  | nil => simp
  | cons h t ih =>
    rw [List.foldl_cons, ih, List.any_cons]
    cases hc : (h.Key == correlationKey && decide (h.Value.length > 0)) <;> cases acc <;> simp

theorem hasCorrelationID_eq_any (hs : List Header) :
    hasCorrelationID hs =
      hs.any (fun v => v.Key == correlationKey && decide (v.Value.length > 0)) := by
  unfold hasCorrelationID
  rw [hasCorrelationID_foldl]
  simp

theorem hasCorrelationID_append_generated (hs : List Header) (u : Bytes) (hu : u ≠ []) :
    hasCorrelationID (hs ++ [{ Key := correlationKey, Value := u }]) = true := by
  rw [hasCorrelationID_eq_any, List.any_append]
  have : 0 < u.length := List.length_pos.mpr hu
  simp [this]

theorem filled_nil_of_not_has (hs : List Header) (h : hasCorrelationID hs = false) :
    filledCorrelationHeaders hs = [] := by
  rw [hasCorrelationID_eq_any] at h
  unfold filledCorrelationHeaders
  rw [List.filter_eq_nil_iff]
  intro a ha
  have := (List.any_eq_false.mp h) a ha
  simpa using this

theorem filled_pos_of_has (hs : List Header) (h : hasCorrelationID hs = true) :
    1 ≤ (filledCorrelationHeaders hs).length := by
  rw [hasCorrelationID_eq_any, List.any_eq_true] at h
  obtain ⟨a, ha, hpa⟩ := h
  have : a ∈ filledCorrelationHeaders hs := by
    unfold filledCorrelationHeaders
    exact List.mem_filter.mpr ⟨ha, hpa⟩
  exact List.length_pos_of_mem this

theorem filled_append_generated (hs : List Header) (u : Bytes) (hu : u ≠ []) :
    filledCorrelationHeaders (hs ++ [{ Key := correlationKey, Value := u }]) =
      filledCorrelationHeaders hs ++ [{ Key := correlationKey, Value := u }] := by
  have : 0 < u.length := List.length_pos.mpr hu
  simp [filledCorrelationHeaders, List.filter_append, List.filter_cons, this]

theorem correlation_append_generated (hs : List Header) (u : Bytes) :
    correlationHeaders (hs ++ [{ Key := correlationKey, Value := u }]) =
      correlationHeaders hs ++ [{ Key := correlationKey, Value := u }] := by
  simp [correlationHeaders, List.filter_append, List.filter_cons]

theorem ensureCorrelationID_of_has {T : Type} (E : PublishEnv T) (st : PublishState)
    (h : hasCorrelationID st.headers = true) : Publish.ensureCorrelationID E st = st := by
  simp [Publish.ensureCorrelationID, h]

theorem ensureCorrelationID_of_not_has {T : Type} (E : PublishEnv T) (st : PublishState)
    (h : hasCorrelationID st.headers = false) :
    Publish.ensureCorrelationID E st =
      { st with
        headers := st.headers ++ [{ Key := correlationKey, Value := E.newUuid st.uuidCalls }],
        uuidCalls := st.uuidCalls + 1 } := by
  simp [Publish.ensureCorrelationID, h]

theorem ensureCorrelationID_enqueued {T : Type} (E : PublishEnv T) (st : PublishState) :
    (Publish.ensureCorrelationID E st).enqueued = st.enqueued := by
  unfold Publish.ensureCorrelationID
  split <;> rfl

theorem loop_cons_marshal_error {T : Type} (E : PublishEnv T) (kcs : KafkaProducerSettings)
    (x : T) (rest : List T) (st : PublishState) (err : String)
    (hm : E.marshal x = .error err) :
    Publish.loop E kcs (x :: rest) st = (some err, Publish.ensureCorrelationID E st) := by
  rw [Publish.loop]
  simp [hm]

theorem loop_cons_produce_error {T : Type} (E : PublishEnv T) (kcs : KafkaProducerSettings)
    (x : T) (rest : List T) (st : PublishState) (data : Bytes) (err : String)
    (hm : E.marshal x = .ok data)
    (hp : E.produce (Publish.ensureCorrelationID E st).enqueued.length
      (outgoing kcs data (Publish.ensureCorrelationID E st).headers) = some err) :
    Publish.loop E kcs (x :: rest) st = (some err, Publish.ensureCorrelationID E st) := by
  rw [Publish.loop]
  simp [hm, hp]

theorem loop_cons_enqueued {T : Type} (E : PublishEnv T) (kcs : KafkaProducerSettings)
    (x : T) (rest : List T) (st : PublishState) (data : Bytes)
    (hm : E.marshal x = .ok data)
    (hp : E.produce (Publish.ensureCorrelationID E st).enqueued.length
      (outgoing kcs data (Publish.ensureCorrelationID E st).headers) = none) :
    Publish.loop E kcs (x :: rest) st =
      Publish.loop E kcs rest
        { Publish.ensureCorrelationID E st with
          enqueued := (Publish.ensureCorrelationID E st).enqueued ++
            [outgoing kcs data (Publish.ensureCorrelationID E st).headers],
          drains := (Publish.ensureCorrelationID E st).drains + 1 } := by
  rw [Publish.loop]
  simp [hm, hp]

/-- Once the local header list holds a filled correlation header, the loop
neither changes it nor asks for another id, and every message it enqueues
carries exactly that list. -/
theorem loop_stable {T : Type} (E : PublishEnv T) (kcs : KafkaProducerSettings)
    (msgs : List T) :
    ∀ st : PublishState, hasCorrelationID st.headers = true →
      (Publish.loop E kcs msgs st).2.headers = st.headers ∧
      (Publish.loop E kcs msgs st).2.uuidCalls = st.uuidCalls ∧
      ∃ added, (Publish.loop E kcs msgs st).2.enqueued = st.enqueued ++ added ∧
        ∀ m ∈ added, m.Headers = st.headers := by
  induction msgs with
  | nil =>
    intro st _
    exact ⟨rfl, rfl, [], by simp [Publish.loop], by simp⟩
  | cons x rest ih =>
    intro st hst
    have hens := ensureCorrelationID_of_has E st hst
    cases hm : E.marshal x with
    | error err =>
      rw [loop_cons_marshal_error E kcs x rest st err hm, hens]
      exact ⟨rfl, rfl, [], by simp, by simp⟩
    | ok data =>
      cases hp : E.produce (Publish.ensureCorrelationID E st).enqueued.length
          (outgoing kcs data (Publish.ensureCorrelationID E st).headers) with
      | some err =>
        rw [loop_cons_produce_error E kcs x rest st data err hm hp, hens]
        exact ⟨rfl, rfl, [], by simp, by simp⟩
      | none =>
        rw [loop_cons_enqueued E kcs x rest st data hm hp, hens]
        obtain ⟨h1, h2, added, h3, h4⟩ :=
          ih { st with
               enqueued := st.enqueued ++ [outgoing kcs data st.headers],
               drains := st.drains + 1 } hst
        refine ⟨h1, h2, outgoing kcs data st.headers :: added, ?_, ?_⟩
        · rw [h3]; simp
        · intro m hmem
          rcases List.mem_cons.mp hmem with h | h
          · rw [h]; rfl
          · exact h4 m h

/-- From a header list without a filled correlation header, and with a generator
that yields a non-empty id, the loop over at least one payload appends one
generated header, asks for exactly one id, and every message it enqueues carries
the extended list. -/
theorem loop_generates {T : Type} (E : PublishEnv T) (kcs : KafkaProducerSettings)
    (x : T) (rest : List T) (st : PublishState)
    (hst : hasCorrelationID st.headers = false) (hgen : E.newUuid st.uuidCalls ≠ []) :
    (Publish.loop E kcs (x :: rest) st).2.headers =
      st.headers ++ [{ Key := correlationKey, Value := E.newUuid st.uuidCalls }] ∧
    (Publish.loop E kcs (x :: rest) st).2.uuidCalls = st.uuidCalls + 1 ∧
    ∃ added, (Publish.loop E kcs (x :: rest) st).2.enqueued = st.enqueued ++ added ∧
      ∀ m ∈ added, m.Headers =
        st.headers ++ [{ Key := correlationKey, Value := E.newUuid st.uuidCalls }] := by
  have hnew := hasCorrelationID_append_generated st.headers (E.newUuid st.uuidCalls) hgen
  have hens := ensureCorrelationID_of_not_has E st hst
  cases hm : E.marshal x with
  | error err =>
    rw [loop_cons_marshal_error E kcs x rest st err hm, hens]
    exact ⟨rfl, rfl, [], by simp, by simp⟩
  | ok data =>
    cases hp : E.produce (Publish.ensureCorrelationID E st).enqueued.length
        (outgoing kcs data (Publish.ensureCorrelationID E st).headers) with
    | some err =>
      rw [loop_cons_produce_error E kcs x rest st data err hm hp, hens]
      exact ⟨rfl, rfl, [], by simp, by simp⟩
    | none =>
      rw [loop_cons_enqueued E kcs x rest st data hm hp, hens]
      obtain ⟨h1, h2, added, h3, h4⟩ :=
        loop_stable E kcs rest
          { headers := st.headers ++ [{ Key := correlationKey, Value := E.newUuid st.uuidCalls }],
            uuidCalls := st.uuidCalls + 1,
            enqueued := st.enqueued ++
              [outgoing kcs data
                (st.headers ++ [{ Key := correlationKey, Value := E.newUuid st.uuidCalls }])],
            drains := st.drains + 1 } hnew
      refine ⟨h1, h2,
        outgoing kcs data
          (st.headers ++ [{ Key := correlationKey, Value := E.newUuid st.uuidCalls }]) :: added,
        ?_, ?_⟩
      · rw [h3]; simp
      · intro m hmem
        rcases List.mem_cons.mp hmem with h | h
        · rw [h]; rfl
        · exact h4 m h

/-- Payloads that serialize and are accepted are enqueued one after the other:
after a run of such payloads the loop continues on the rest from a state whose
queue has grown by exactly their serialized values, in input order. -/
theorem loop_enqueues_run {T : Type} (E : PublishEnv T) (kcs : KafkaProducerSettings)
    (hprod : ∀ n m, E.produce n m = none) (pre : List T) :
    ∀ (rest : List T) (st : PublishState),
      (∀ x ∈ pre, ∃ d, E.marshal x = .ok d) →
      ∃ st', Publish.loop E kcs (pre ++ rest) st = Publish.loop E kcs rest st' ∧
        st'.enqueued.map (fun m => (Except.ok m.Value : Except String Bytes)) =
          st.enqueued.map (fun m => (Except.ok m.Value : Except String Bytes)) ++
            pre.map E.marshal ∧
        st'.enqueued.length = st.enqueued.length + pre.length := by
  induction pre with
  | nil =>
    intro rest st _
    exact ⟨st, rfl, by simp, by simp⟩
  | cons x xs ih =>
    intro rest st hall
    obtain ⟨d, hd⟩ := hall x (List.mem_cons_self x xs)
    obtain ⟨st', hrun, hvals, hlen⟩ :=
      ih rest
        { Publish.ensureCorrelationID E st with
          enqueued := (Publish.ensureCorrelationID E st).enqueued ++
            [outgoing kcs d (Publish.ensureCorrelationID E st).headers],
          drains := (Publish.ensureCorrelationID E st).drains + 1 }
        (fun y hy => hall y (List.mem_cons_of_mem x hy))
    refine ⟨st', ?_, ?_, ?_⟩
    · rw [List.cons_append, loop_cons_enqueued E kcs x (xs ++ rest) st d hd (hprod _ _), hrun]
    · rw [hvals]
      simp [ensureCorrelationID_enqueued, hd, outgoing]
    · rw [hlen]
      simp [ensureCorrelationID_enqueued]
      omega

/-- C6: with a producer handle and a client that accepts every message, if the
payload at index `k` is the first that does not serialize, `Publish` returns
that serialization error, exactly `k` messages have been enqueued, and their
values are the serialized first `k` payloads in input order; nothing at index
`k` or later is enqueued. If every payload serializes, `Publish` returns no
error and the values enqueued are all the serialized payloads in input order. -/
theorem Publish_serialization_failure {T : Type} (E : PublishEnv T)
    (kcs : KafkaProducerSettings) (ctxHeaders : List Header) (msgs : List T)
    (hnp : E.newProducer = none) (hprod : ∀ n m, E.produce n m = none) :
    (∀ k x err, msgs[k]? = some x → E.marshal x = .error err →
      (∀ i y, i < k → msgs[i]? = some y → ∃ d, E.marshal y = .ok d) →
      (Publish E kcs ctxHeaders msgs).1 = some err ∧
      (Publish E kcs ctxHeaders msgs).2.enqueued.length = k ∧
      (Publish E kcs ctxHeaders msgs).2.enqueued.map
          (fun m => (Except.ok m.Value : Except String Bytes)) =
        (msgs.take k).map E.marshal) ∧
    ((∀ x ∈ msgs, ∃ d, E.marshal x = .ok d) →
      (Publish E kcs ctxHeaders msgs).1 = none ∧
      (Publish E kcs ctxHeaders msgs).2.enqueued.length = msgs.length ∧
      (Publish E kcs ctxHeaders msgs).2.enqueued.map
          (fun m => (Except.ok m.Value : Except String Bytes)) =
        msgs.map E.marshal) := by
  have hpub : Publish E kcs ctxHeaders msgs =
      Publish.loop E kcs msgs
        { headers := ctxHeaders, uuidCalls := 0, enqueued := [], drains := 0 } := by
    simp [Publish, hnp]
  constructor
  · intro k x err hx herr hbefore
    have hk : k < msgs.length := by
      by_contra hcon
      rw [List.getElem?_eq_none (by omega)] at hx
      exact Option.noConfusion hx
    have hsplit : msgs = msgs.take k ++ x :: msgs.drop (k + 1) := by
      have h1 : msgs[k] = x := by
        rw [List.getElem?_eq_getElem hk] at hx
        exact Option.some.inj hx
      rw [← h1, ← List.drop_eq_getElem_cons hk, List.take_append_drop]
    have hpre : ∀ y ∈ msgs.take k, ∃ d, E.marshal y = .ok d := by
      intro y hy
      obtain ⟨i, hi, hiy⟩ := List.getElem_of_mem hy
      have hik : i < k := by
        have := List.length_take_le k msgs
        omega
      apply hbefore i y hik
      rw [List.getElem_take] at hiy
      rw [List.getElem?_eq_getElem (by omega), hiy]
    obtain ⟨st', hrun, hvals, hlen⟩ :=
      loop_enqueues_run E kcs hprod (msgs.take k) (x :: msgs.drop (k + 1))
        { headers := ctxHeaders, uuidCalls := 0, enqueued := [], drains := 0 } hpre
    rw [hpub]
    have hgo : Publish.loop E kcs msgs
        { headers := ctxHeaders, uuidCalls := 0, enqueued := [], drains := 0 } =
        (some err, Publish.ensureCorrelationID E st') := by
      conv => lhs; rw [hsplit]
      rw [hrun, loop_cons_marshal_error E kcs x _ st' err herr]
    rw [hgo]
    refine ⟨rfl, ?_, ?_⟩
    · simp only [ensureCorrelationID_enqueued, hlen, List.length_nil, Nat.zero_add,
        List.length_take]
      omega
    · simp only [ensureCorrelationID_enqueued, hvals, List.map_nil, List.nil_append]
  · intro hall
    obtain ⟨st', hrun, hvals, hlen⟩ :=
      loop_enqueues_run E kcs hprod msgs []
        { headers := ctxHeaders, uuidCalls := 0, enqueued := [], drains := 0 } hall
    rw [List.append_nil] at hrun
    rw [hpub, hrun]
    refine ⟨rfl, ?_, ?_⟩
    · simpa [Publish.loop] using hlen
    · simpa [Publish.loop] using hvals

/-- Witness for C6: of the payloads `5, 7, 0, 9` the third does not serialize; the
first two are enqueued, in that order, and the fourth is not. -/
theorem Publish_serialization_failure_witness :
    (Publish samplePublishEnv sampleProducerSettings [] [5, 7, 0, 9]).1 =
      some "unsupported value" ∧
    (Publish samplePublishEnv sampleProducerSettings [] [5, 7, 0, 9]).2.enqueued.length = 2 ∧
    (Publish samplePublishEnv sampleProducerSettings [] [5, 7, 0, 9]).2.enqueued.map
        (fun m => (Except.ok m.Value : Except String Bytes)) =
      ([5, 7, 0, 9].take 2).map samplePublishEnv.marshal :=
  (Publish_serialization_failure samplePublishEnv sampleProducerSettings [] [5, 7, 0, 9]
    rfl (fun _ _ => rfl)).1 2 0 "unsupported value" rfl rfl
    (fun i y hi hy => by
      match i, hi with
      | 0, _ => exact ⟨[5], by cases hy; rfl⟩
      | 1, _ => exact ⟨[7], by cases hy; rfl⟩)

/-- C5, as amended: with a generator of non-empty ids, when the context headers
hold a filled correlation header no id is generated and every enqueued message
carries the context headers unchanged; otherwise at most one id is generated in
the whole call, exactly one when a producer exists and there is a payload, and
every enqueued message carries the context headers followed by that one
generated header. In both cases every enqueued message carries a correlation
header with a non-empty value, and exactly one such header when the context
yields at most one; when moreover the context yields no correlation header with
an empty value, that header is the only one with the correlation key. -/
theorem Publish_correlation_header {T : Type} (E : PublishEnv T)
    (kcs : KafkaProducerSettings) (ctxHeaders : List Header) (msgs : List T)
    (hgen : ∀ i, E.newUuid i ≠ []) :
    (hasCorrelationID ctxHeaders = true →
      (Publish E kcs ctxHeaders msgs).2.uuidCalls = 0 ∧
      ∀ m ∈ (Publish E kcs ctxHeaders msgs).2.enqueued, m.Headers = ctxHeaders) ∧
    (hasCorrelationID ctxHeaders = false →
      (Publish E kcs ctxHeaders msgs).2.uuidCalls ≤ 1 ∧
      (E.newProducer = none → msgs ≠ [] → (Publish E kcs ctxHeaders msgs).2.uuidCalls = 1) ∧
      ∀ m ∈ (Publish E kcs ctxHeaders msgs).2.enqueued,
        m.Headers = ctxHeaders ++ [{ Key := correlationKey, Value := E.newUuid 0 }]) ∧
    (∀ m ∈ (Publish E kcs ctxHeaders msgs).2.enqueued,
      1 ≤ (filledCorrelationHeaders m.Headers).length ∧
      ((filledCorrelationHeaders ctxHeaders).length ≤ 1 →
        (filledCorrelationHeaders m.Headers).length = 1) ∧
      (correlationHeaders ctxHeaders = filledCorrelationHeaders ctxHeaders →
        (correlationHeaders ctxHeaders).length ≤ 1 →
        (correlationHeaders m.Headers).length = 1)) := by
  have hyes : hasCorrelationID ctxHeaders = true →
      (Publish E kcs ctxHeaders msgs).2.uuidCalls = 0 ∧
      ∀ m ∈ (Publish E kcs ctxHeaders msgs).2.enqueued, m.Headers = ctxHeaders := by
    intro hhas
    cases hnp : E.newProducer with
    | some err => simp [Publish, hnp]
    | none =>
      have hpub : Publish E kcs ctxHeaders msgs =
          Publish.loop E kcs msgs
            { headers := ctxHeaders, uuidCalls := 0, enqueued := [], drains := 0 } := by
        simp [Publish, hnp]
      obtain ⟨_, h2, added, h3, h4⟩ :=
        loop_stable E kcs msgs
          { headers := ctxHeaders, uuidCalls := 0, enqueued := [], drains := 0 } hhas
      rw [hpub]
      refine ⟨h2, ?_⟩
      intro m hm
      rw [h3] at hm
      exact h4 m (by simpa using hm)
  have hno : hasCorrelationID ctxHeaders = false →
      (Publish E kcs ctxHeaders msgs).2.uuidCalls ≤ 1 ∧
      (E.newProducer = none → msgs ≠ [] → (Publish E kcs ctxHeaders msgs).2.uuidCalls = 1) ∧
      ∀ m ∈ (Publish E kcs ctxHeaders msgs).2.enqueued,
        m.Headers = ctxHeaders ++ [{ Key := correlationKey, Value := E.newUuid 0 }] := by
    intro hhas
    cases hnp : E.newProducer with
    | some err => simp [Publish, hnp]
    | none =>
      have hpub : Publish E kcs ctxHeaders msgs =
          Publish.loop E kcs msgs
            { headers := ctxHeaders, uuidCalls := 0, enqueued := [], drains := 0 } := by
        simp [Publish, hnp]
      cases msgs with
      | nil => simp [Publish, hnp, Publish.loop]
      | cons x rest =>
        obtain ⟨_, h2, added, h3, h4⟩ :=
          loop_generates E kcs x rest
            { headers := ctxHeaders, uuidCalls := 0, enqueued := [], drains := 0 } hhas (hgen 0)
        rw [hpub]
        refine ⟨by rw [h2], fun _ _ => by rw [h2], ?_⟩
        intro m hm
        rw [h3] at hm
        exact h4 m (by simpa using hm)
  refine ⟨hyes, hno, ?_⟩
  intro m hm
  cases hhas : hasCorrelationID ctxHeaders with
  | true =>
    rw [(hyes hhas).2 m hm]
    have := filled_pos_of_has ctxHeaders hhas
    exact ⟨this, fun h => by omega, fun heq hle => by rw [heq] at hle ⊢; omega⟩
  | false =>
    have hnil := filled_nil_of_not_has ctxHeaders hhas
    rw [(hno hhas).2.2 m hm, filled_append_generated ctxHeaders _ (hgen 0), hnil]
    refine ⟨by simp, fun _ => by simp, fun heq _ => ?_⟩
    rw [correlation_append_generated, heq]
    simp

/-- Witness for C5: two payloads published from a context without any
correlation header. -/
theorem Publish_correlation_header_witness :
    (hasCorrelationID [{ Key := "X-Tenant-Id", Value := [65] }] = true →
      (Publish samplePublishEnv sampleProducerSettings
        [{ Key := "X-Tenant-Id", Value := [65] }] [5, 7]).2.uuidCalls = 0 ∧
      ∀ m ∈ (Publish samplePublishEnv sampleProducerSettings
          [{ Key := "X-Tenant-Id", Value := [65] }] [5, 7]).2.enqueued,
        m.Headers = [{ Key := "X-Tenant-Id", Value := [65] }]) ∧
    (hasCorrelationID [{ Key := "X-Tenant-Id", Value := [65] }] = false →
      (Publish samplePublishEnv sampleProducerSettings
        [{ Key := "X-Tenant-Id", Value := [65] }] [5, 7]).2.uuidCalls ≤ 1 ∧
      (samplePublishEnv.newProducer = none → [5, 7] ≠ [] →
        (Publish samplePublishEnv sampleProducerSettings
          [{ Key := "X-Tenant-Id", Value := [65] }] [5, 7]).2.uuidCalls = 1) ∧
      ∀ m ∈ (Publish samplePublishEnv sampleProducerSettings
          [{ Key := "X-Tenant-Id", Value := [65] }] [5, 7]).2.enqueued,
        m.Headers = [{ Key := "X-Tenant-Id", Value := [65] }] ++
          [{ Key := correlationKey, Value := samplePublishEnv.newUuid 0 }]) ∧
    (∀ m ∈ (Publish samplePublishEnv sampleProducerSettings
        [{ Key := "X-Tenant-Id", Value := [65] }] [5, 7]).2.enqueued,
      1 ≤ (filledCorrelationHeaders m.Headers).length ∧
      ((filledCorrelationHeaders [{ Key := "X-Tenant-Id", Value := [65] }]).length ≤ 1 →
        (filledCorrelationHeaders m.Headers).length = 1) ∧
      (correlationHeaders [{ Key := "X-Tenant-Id", Value := [65] }] =
          filledCorrelationHeaders [{ Key := "X-Tenant-Id", Value := [65] }] →
        (correlationHeaders [{ Key := "X-Tenant-Id", Value := [65] }]).length ≤ 1 →
        (correlationHeaders m.Headers).length = 1)) :=
  Publish_correlation_header samplePublishEnv sampleProducerSettings
    [{ Key := "X-Tenant-Id", Value := [65] }] [5, 7] (fun i => by simp [samplePublishEnv])

/-- Counterexample to C5 as stated: when the context yields a correlation header
with an empty value, the one message published carries two headers with the
correlation key, the empty one and the generated one. -/
theorem Publish_duplicate_correlation_key :
    (Publish samplePublishEnv sampleProducerSettings
        [{ Key := "X-Correlation-Id", Value := [] }] [5]).2.enqueued.map
        (fun m => m.Headers) =
      [[{ Key := "X-Correlation-Id", Value := [] },
        { Key := "X-Correlation-Id", Value := [48] }]] ∧
    ¬ (∀ m ∈ (Publish samplePublishEnv sampleProducerSettings
          [{ Key := "X-Correlation-Id", Value := [] }] [5]).2.enqueued,
        (correlationHeaders m.Headers).length = 1) := by
  decide

/-! ## Theorems: the repository filters -/

/-- The filter `GetAll` builds for a tenant is the listing condition of the
specification: the caller's filter, the caller's or the all-zero tenant, and
active. -/
theorem GetAll_filter_is_listing_condition {φ : Type} (sem : φ → Document → Bool)
    (mustParse : String → Option Uuid) (tenantId : String) (t : Uuid) (filter : φ)
    (hne : tenantId ≠ "") (hparse : mustParse tenantId = some t) :
    ∃ q, GetAll.filterAggregator mustParse tenantId filter = some q ∧
      ∀ d, q.holds sem d = tenantListingCondition sem t filter d := by
  refine ⟨{ conjuncts :=
      [.caller filter, .anyOf [("tenantId", .uuid t), ("tenantId", .uuid Uuid.zero)],
        .field "active" (.bool true)] }, by simp [GetAll.filterAggregator, hne, hparse], ?_⟩
  intro d
  simp [FilterAggregator.holds, Clause.holds, tenantListingCondition, fieldMatches,
    Bool.and_assoc]

/-- The filter `GetAllSkipTake` builds for a tenant puts the `active` test
inside the `$or`: a document passes when it passes the caller's filter and is of
the caller's tenant, or of the all-zero tenant, or active. -/
theorem GetAllSkipTake_filter_meaning {φ : Type} (sem : φ → Document → Bool)
    (mustParse : String → Option Uuid) (tenantId : String) (t : Uuid) (filter : φ)
    (hne : tenantId ≠ "") (hparse : mustParse tenantId = some t) :
    ∃ q, GetAllSkipTake.filterAggregator mustParse tenantId filter = some q ∧
      ∀ d, q.holds sem d =
        (sem filter d &&
          (d.get "tenantId" == some (.uuid t) || d.get "tenantId" == some (.uuid Uuid.zero) ||
            d.get "active" == some (.bool true))) := by
  refine ⟨{ conjuncts :=
      [.caller filter,
        .anyOf [("tenantId", .uuid t), ("tenantId", .uuid Uuid.zero), ("active", .bool true)]] },
    by simp [GetAllSkipTake.filterAggregator, hne, hparse], ?_⟩
  intro d
  simp [FilterAggregator.holds, Clause.holds, fieldMatches, Bool.or_assoc]

/-- C10 (evaluation at a failing input): for the tenant `1111...` and a caller
filter that admits every document, the filter of `GetAllSkipTake` differs from
the filter of `GetAll`; it admits an active document of another tenant and a
soft-deleted document of the caller's tenant, both of which the filter of
`GetAll` and the listing condition of the specification reject. -/
theorem GetAllSkipTake_filter_admits_foreign_and_inactive :
    GetAllSkipTake.filterAggregator sampleMustParse sampleTenant () ≠
      GetAll.filterAggregator sampleMustParse sampleTenant () ∧
    (GetAllSkipTake.filterAggregator sampleMustParse sampleTenant ()).map
        (FilterAggregator.holds (fun _ _ => true) foreignActiveDocument) = some true ∧
    (GetAll.filterAggregator sampleMustParse sampleTenant ()).map
        (FilterAggregator.holds (fun _ _ => true) foreignActiveDocument) = some false ∧
    tenantListingCondition (fun _ _ => true) { canonical := sampleTenant } ()
        foreignActiveDocument = false ∧
    (GetAllSkipTake.filterAggregator sampleMustParse sampleTenant ()).map
        (FilterAggregator.holds (fun _ _ => true) ownInactiveDocument) = some true ∧
    (GetAll.filterAggregator sampleMustParse sampleTenant ()).map
        (FilterAggregator.holds (fun _ _ => true) ownInactiveDocument) = some false ∧
    tenantListingCondition (fun _ _ => true) { canonical := sampleTenant } ()
        ownInactiveDocument = false := by
  decide

end Goframework
